import Mathlib

/-!
Shallow embedding of `src/1_ECMWF_API.py`: a sequential sweep that, for each
requested date and each fixed time slot, fetches an HTML directory listing per
product type and downloads every `.grib2` link into
`<base_dir>/<YYYY_MM_DD>/<slot>/`.  HTTP and the HTML parser are modelled by an
explicit environment, the filesystem by an explicit state; every side effect is
recorded as an event in program order.
-/

namespace ECMWF

/-- Python `str.endswith`. -/
def ends (s p : String) : Bool := p.data.isSuffixOf s.data

/-- Python `str.replace` (non-overlapping, left to right), driven by explicit
fuel so that it is structurally recursive; the fuel is the length of the
subject string, which suffices for a non-empty pattern. -/
def replaceAux : Nat → List Char → List Char → List Char → List Char
  | 0, s, _, _ => s
  | _ + 1, [], _, _ => []
  | fuel + 1, c :: rest, pat, rep =>
    if !pat.isEmpty && pat.isPrefixOf (c :: rest) then
      rep ++ replaceAux fuel (List.drop pat.length (c :: rest)) pat rep
    else
      c :: replaceAux fuel rest pat rep

/-- Python `str.replace` for a non-empty pattern. -/
def pyReplace (s pat rep : String) : String :=
  String.mk (replaceAux s.data.length s.data pat.data rep.data)

/-- `url_template.format(date=..., time=..., file_type=...)` (line 38) on a
template that uses exactly the three named fields. -/
def pyFormat (tpl date time ft : String) : String :=
  pyReplace (pyReplace (pyReplace tpl "{date}" date) "{time}" time) "{file_type}" ft

/-- `os.path.join` of one further path component. -/
def pathJoin (a b : String) : String := a ++ "/" ++ b

/-- Characters after the last slash. -/
def lastSegment (l : List Char) : List Char :=
  l.foldl (fun acc c => if c = '/' then [] else acc ++ [c]) []

/-- `os.path.basename` (line 48). -/
def basename (s : String) : String := String.mk (lastSegment s.data)

/-- The f-string `f"{date[:4]}_{date[4:6]}_{date[6:]}"` (line 31). -/
def reformat (date : String) : String :=
  String.mk (date.data.take 4) ++ "_" ++ String.mk ((date.data.drop 4).take 2) ++ "_"
    ++ String.mk (date.data.drop 6)

/-- `os.path.join(base_dir, date_fmt, time)` (line 32). -/
def targetDirOf (base_dir date time : String) : String :=
  pathJoin (pathJoin base_dir (reformat date)) time

/-- Observable side effects of the sweep, in program order. -/
inductive Event where
  | mkdir (path : String)
  | listGet (url : String)
  | fileGet (url : String)
  | fileWrite (dir name : String) (content : List Nat)
  | print (msg : String)
deriving DecidableEq

/-- Filesystem state: existing directories, and file contents keyed by path. -/
structure FS where
  dirs : List String
  files : List (String × List Nat)
deriving DecidableEq

/-- External world: a listing response is an HTTP status code together with the
href attributes of the anchors of the parsed HTML body (`None` for an anchor
without `href`); a file response is its byte content. -/
structure Env where
  listing : String → Nat × List (Option String)
  fileBody : String → List Nat

/-- `open(file_path, "wb")` followed by writing `content` (lines 53-55):
truncates an existing file at the same path, otherwise creates a new entry. -/
def setFile (files : List (String × List Nat)) (p : String) (c : List Nat) :
    List (String × List Nat) :=
  if files.any (fun kv => kv.1 == p) then
    files.map (fun kv => if kv.1 == p then (p, c) else kv)
  else
    files ++ [(p, c)]

/-- Message of line 57. -/
def downloadedMsg (file_name : String) : String := file_name ++ " downloaded."

/-- Message of line 59. -/
def completionMsg (date time : String) : String :=
  "All files have been downloaded for " ++ date ++ " at " ++ time ++ "."

/-- Message of line 61. -/
def failMsg (url : String) : String := "Failed to access " ++ url

/-- Body of the `for link in links` loop (lines 45-57) for one anchor: the
href must be truthy (present and non-empty) and end in `.grib2`; the file is
fetched from the listing URL concatenated with the bare file name and written
under the target directory. -/
def processAnchor (env : Env) (url target_dir : String) (fs : FS) (href? : Option String) :
    FS × List Event :=
  match href? with
  | none => (fs, [])
  | some href =>
    if (href != "" && ends href ".grib2") = true then
      let file_name := basename href
      let file_url := url ++ file_name
      let content := env.fileBody file_url
      ({ fs with files := setFile fs.files (pathJoin target_dir file_name) content },
        [Event.fileGet file_url, Event.fileWrite target_dir file_name content,
          Event.print (downloadedMsg file_name)])
    else
      (fs, [])

/-- The `for link in links` loop over all anchors of a listing page. -/
def processAnchors (env : Env) (url target_dir : String) :
    FS → List (Option String) → FS × List Event
  | fs, [] => (fs, [])
  | fs, a :: rest =>
    let r := processAnchor env url target_dir fs a
    let rr := processAnchors env url target_dir r.1 rest
    (rr.1, r.2 ++ rr.2)

/-- Body of the `for t in types` loop (lines 37-61) for one product type. -/
def fetchType (env : Env) (tpl date time target_dir : String) (fs : FS) (t : String) :
    FS × List Event :=
  let url := pyFormat tpl date time t
  let res := env.listing url
  if res.1 = 200 then
    let r := processAnchors env url target_dir fs res.2
    (r.1, Event.listGet url :: (r.2 ++ [Event.print (completionMsg date time)]))
  else
    (fs, [Event.listGet url, Event.print (failMsg url)])

/-- The `for t in types` loop. -/
def fetchTypes (env : Env) (tpl date time target_dir : String) :
    FS → List String → FS × List Event
  | fs, [] => (fs, [])
  | fs, t :: rest =>
    let r := fetchType env tpl date time target_dir fs t
    let rr := fetchTypes env tpl date time target_dir r.1 rest
    (rr.1, r.2 ++ rr.2)

/-- `download_grib_files` (lines 20-61): build the target directory, create it
unless it already exists, then process every product type. -/
def download_grib_files (env : Env) (url_tpl date base_dir time : String)
    (types : List String) (fs : FS) : FS × List Event :=
  let target_dir := targetDirOf base_dir date time
  if target_dir ∈ fs.dirs then
    fetchTypes env url_tpl date time target_dir fs types
  else
    let r := fetchTypes env url_tpl date time target_dir
      { fs with dirs := target_dir :: fs.dirs } types
    (r.1, Event.mkdir target_dir :: r.2)

/-- The fixed URL template (line 71). -/
def url_template : String :=
  "https://data.ecmwf.int/forecasts/{date}/{time}/ifs/0p25/{file_type}/"

/-- `times_types` (lines 72-77), in dict insertion order. -/
def times_types : List (String × List String) :=
  [("00z", ["oper", "wave"]), ("12z", ["oper", "wave"]),
    ("06z", ["scda", "scwv"]), ("18z", ["scda", "scwv"])]

/-- The `for time, types in times_types.items()` loop (lines 80-81). -/
def runSlots (env : Env) (date base_dir : String) :
    FS → List (String × List String) → FS × List Event
  | fs, [] => (fs, [])
  | fs, tt :: rest =>
    let r := download_grib_files env url_template date base_dir tt.1 tt.2 fs
    let rr := runSlots env date base_dir r.1 rest
    (rr.1, r.2 ++ rr.2)

/-- `lists_by_dates` (lines 63-81): the whole sweep. -/
def lists_by_dates (env : Env) (dates : List String) (base_dir : String) (fs : FS) :
    FS × List Event :=
  match dates with
  | [] => (fs, [])
  | d :: ds =>
    let r := runSlots env d base_dir fs times_types
    let rr := lists_by_dates env ds base_dir r.1
    (rr.1, r.2 ++ rr.2)

/-- Listing-request URLs of a trace, in order. -/
def listingUrlsOf (evs : List Event) : List String :=
  evs.filterMap (fun e => match e with | Event.listGet u => some u | _ => none)

/-- File-download URLs of a trace, in order. -/
def fileGetUrlsOf (evs : List Event) : List String :=
  evs.filterMap (fun e => match e with | Event.fileGet u => some u | _ => none)

/-- File writes `(directory, file name, content)` of a trace, in order. -/
def writesOf (evs : List Event) : List (String × String × List Nat) :=
  evs.filterMap (fun e => match e with | Event.fileWrite d n c => some (d, n, c) | _ => none)

/-- Number of times the message `m` is printed in a trace. -/
def countMsg (evs : List Event) (m : String) : Nat :=
  (evs.filter (fun e => match e with | Event.print m' => m' == m | _ => false)).length

/-- Filesystem discipline of a trace, starting from the directories `ds`: a
directory is never created twice (a bare `os.makedirs` call fails on an
existing directory) and every file write lands in a directory existing at the
time of the write. -/
def fsOk : List String → List Event → Bool
  | _, [] => true
  | ds, Event.mkdir p :: rest => !ds.contains p && fsOk (p :: ds) rest
  | ds, Event.fileWrite d _ _ :: rest => ds.contains d && fsOk ds rest
  | ds, _ :: rest => fsOk ds rest

/-- Directories existing after replaying a trace. -/
def dirsAfter (ds : List String) (evs : List Event) : List String :=
  evs.foldl (fun acc e => match e with | Event.mkdir p => p :: acc | _ => acc) ds

/-- Spec side: the listing URLs the sweep must request — date-major, then
slot-table order, then type-list order. -/
def expectedUrls (dates : List String) : List String :=
  dates.flatMap (fun d => times_types.flatMap (fun tt => tt.2.map (fun t => pyFormat url_template d tt.1 t)))

/-- Spec side: the file names selected from a listing page — exactly the
anchors whose href is present and ends in the literal suffix `.grib2`, each
reduced to the final path component of the href. -/
def specSelected (anchors : List (Option String)) : List String :=
  anchors.filterMap (fun h? => h?.bind (fun h => if ends h ".grib2" then some (basename h) else none))

/-- Environment whose every listing request returns HTTP 200 with no anchors. -/
def env200 : Env := ⟨fun _ => (200, []), fun _ => []⟩

/-- Environment whose every listing request fails with HTTP 404. -/
def env404 : Env := ⟨fun _ => (404, []), fun _ => []⟩

/-- Empty filesystem. -/
def fs0 : FS := ⟨[], []⟩

/-- Environment whose every listing page holds anchors `a.grib2`, `b.txt`,
`c.grib2`. -/
def envSel : Env :=
  ⟨fun _ => (200, [some "a.grib2", some "b.txt", some "c.grib2"]), fun _ => [7]⟩

/-- Environment whose every listing page holds one anchor with a
path-structured href, one anchor without href, and one non-grib anchor. -/
def envDeep : Env :=
  ⟨fun _ => (200, [some "sub/dir/x.grib2", none, some "notes.txt"]), fun _ => [3]⟩

/-- Environment where every listing page lists `x.grib2`, and the file body
differs between the `oper` listing of 2024-03-11 00z and every other URL. -/
def envDup : Env :=
  ⟨fun _ => (200, [some "x.grib2"]),
    fun u => if u = pyFormat url_template "20240311" "00z" "oper" ++ "x.grib2" then [1] else [2]⟩

lemma listingUrlsOf_append (a b : List Event) :
    listingUrlsOf (a ++ b) = listingUrlsOf a ++ listingUrlsOf b := by
  simp [listingUrlsOf]

lemma listingUrlsOf_nil : listingUrlsOf [] = [] := rfl

lemma listingUrlsOf_cons_listGet (u : String) (l : List Event) :
    listingUrlsOf (Event.listGet u :: l) = u :: listingUrlsOf l := rfl

lemma listingUrlsOf_cons_mkdir (p : String) (l : List Event) :
    listingUrlsOf (Event.mkdir p :: l) = listingUrlsOf l := rfl

lemma listingUrlsOf_cons_fileGet (u : String) (l : List Event) :
    listingUrlsOf (Event.fileGet u :: l) = listingUrlsOf l := rfl

lemma listingUrlsOf_cons_fileWrite (d n : String) (c : List Nat) (l : List Event) :
    listingUrlsOf (Event.fileWrite d n c :: l) = listingUrlsOf l := rfl

lemma listingUrlsOf_cons_print (m : String) (l : List Event) :
    listingUrlsOf (Event.print m :: l) = listingUrlsOf l := rfl

lemma listingUrls_processAnchor (env : Env) (url td : String) (fs : FS) (a : Option String) :
    listingUrlsOf (processAnchor env url td fs a).2 = [] := by
  cases a with
  | none => rfl
  | some href =>
    by_cases hc : (href != "" && ends href ".grib2") = true <;>
      simp [processAnchor, hc, listingUrlsOf]

lemma listingUrls_processAnchors (env : Env) (url td : String) :
    ∀ (as : List (Option String)) (fs : FS),
      listingUrlsOf (processAnchors env url td fs as).2 = [] := by
  intro as
  induction as with
  | nil => intro fs; rfl
  | cons a rest ih =>
    intro fs
    simp [processAnchors, listingUrlsOf_append, listingUrls_processAnchor, ih]

lemma listingUrls_fetchType (env : Env) (tpl d tm td : String) (fs : FS) (t : String) :
    listingUrlsOf (fetchType env tpl d tm td fs t).2 = [pyFormat tpl d tm t] := by
  by_cases h200 : (env.listing (pyFormat tpl d tm t)).1 = 200 <;>
    simp [fetchType, h200, listingUrlsOf_append, listingUrls_processAnchors,
      listingUrlsOf_cons_listGet, listingUrlsOf_cons_print, listingUrlsOf_nil]

lemma listingUrls_fetchTypes (env : Env) (tpl d tm td : String) :
    ∀ (types : List String) (fs : FS),
      listingUrlsOf (fetchTypes env tpl d tm td fs types).2
        = types.map (fun t => pyFormat tpl d tm t) := by
  intro types
  induction types with
  | nil => intro fs; rfl
  | cons t rest ih =>
    intro fs
    simp [fetchTypes, listingUrlsOf_append, listingUrls_fetchType, ih]

lemma listingUrls_download (env : Env) (tpl d bd tm : String) (types : List String) (fs : FS) :
    listingUrlsOf (download_grib_files env tpl d bd tm types fs).2
      = types.map (fun t => pyFormat tpl d tm t) := by
  by_cases hc : targetDirOf bd d tm ∈ fs.dirs <;>
    simp [download_grib_files, hc, listingUrlsOf_cons_mkdir, listingUrls_fetchTypes]

lemma listingUrls_runSlots (env : Env) (d bd : String) :
    ∀ (slots : List (String × List String)) (fs : FS),
      listingUrlsOf (runSlots env d bd fs slots).2
        = slots.flatMap (fun tt => tt.2.map (fun t => pyFormat url_template d tt.1 t)) := by
  intro slots
  induction slots with
  | nil => intro fs; rfl
  | cons tt rest ih =>
    intro fs
    simp [runSlots, listingUrlsOf_append, listingUrls_download, ih]

lemma listingUrls_run (env : Env) (bd : String) :
    ∀ (dates : List String) (fs : FS),
      listingUrlsOf (lists_by_dates env dates bd fs).2 = expectedUrls dates := by
  intro dates
  induction dates with
  | nil => intro fs; rfl
  | cons d ds ih =>
    intro fs
    simp [lists_by_dates, listingUrlsOf_append, listingUrls_runSlots, ih, expectedUrls]

lemma truthy_cond (href : String) :
    (href != "" && ends href ".grib2") = ends href ".grib2" := by
  by_cases h : href = ""
  · subst h; decide
  · have hb : (href != "") = true := by simp [h]
    rw [hb, Bool.true_and]

lemma writesOf_append (a b : List Event) :
    writesOf (a ++ b) = writesOf a ++ writesOf b := by
  simp [writesOf]

lemma writesOf_nil : writesOf [] = [] := rfl

lemma writesOf_cons_listGet (u : String) (l : List Event) :
    writesOf (Event.listGet u :: l) = writesOf l := rfl

lemma writesOf_cons_fileGet (u : String) (l : List Event) :
    writesOf (Event.fileGet u :: l) = writesOf l := rfl

lemma writesOf_cons_fileWrite (d n : String) (c : List Nat) (l : List Event) :
    writesOf (Event.fileWrite d n c :: l) = (d, n, c) :: writesOf l := rfl

lemma writesOf_cons_print (m : String) (l : List Event) :
    writesOf (Event.print m :: l) = writesOf l := rfl

lemma fileGetUrlsOf_append (a b : List Event) :
    fileGetUrlsOf (a ++ b) = fileGetUrlsOf a ++ fileGetUrlsOf b := by
  simp [fileGetUrlsOf]

lemma fileGetUrlsOf_nil : fileGetUrlsOf [] = [] := rfl

lemma fileGetUrlsOf_cons_listGet (u : String) (l : List Event) :
    fileGetUrlsOf (Event.listGet u :: l) = fileGetUrlsOf l := rfl

lemma fileGetUrlsOf_cons_fileGet (u : String) (l : List Event) :
    fileGetUrlsOf (Event.fileGet u :: l) = u :: fileGetUrlsOf l := rfl

lemma fileGetUrlsOf_cons_fileWrite (d n : String) (c : List Nat) (l : List Event) :
    fileGetUrlsOf (Event.fileWrite d n c :: l) = fileGetUrlsOf l := rfl

lemma fileGetUrlsOf_cons_print (m : String) (l : List Event) :
    fileGetUrlsOf (Event.print m :: l) = fileGetUrlsOf l := rfl

lemma specSelected_nil : specSelected [] = [] := rfl

lemma specSelected_cons_none (rest : List (Option String)) :
    specSelected (none :: rest) = specSelected rest := rfl

lemma specSelected_cons_some_pos (s : String) (rest : List (Option String))
    (hg : ends s ".grib2" = true) :
    specSelected (some s :: rest) = basename s :: specSelected rest := by
  simp [specSelected, hg]

lemma specSelected_cons_some_neg (s : String) (rest : List (Option String))
    (hg : ends s ".grib2" = false) :
    specSelected (some s :: rest) = specSelected rest := by
  simp [specSelected, hg]

lemma writes_processAnchors (env : Env) (url td : String) :
    ∀ (as : List (Option String)) (fs : FS),
      writesOf (processAnchors env url td fs as).2
        = (specSelected as).map (fun n => (td, n, env.fileBody (url ++ n))) := by
  intro as
  induction as with
  | nil => intro fs; rfl
  | cons a rest ih =>
    intro fs
    cases a with
    | none =>
      simp [processAnchors, processAnchor, writesOf_append, ih, specSelected_cons_none]
    | some href =>
      cases hg : ends href ".grib2" with
      | true =>
        have hc : (href != "" && ends href ".grib2") = true := by rw [truthy_cond]; exact hg
        simp [processAnchors, processAnchor, hc, writesOf_append, ih,
          specSelected_cons_some_pos href rest hg, writesOf_cons_fileGet,
          writesOf_cons_fileWrite, writesOf_cons_print, writesOf_nil]
      | false =>
        have hc : (href != "" && ends href ".grib2") = false := by rw [truthy_cond]; exact hg
        simp [processAnchors, processAnchor, hc, writesOf_append, ih,
          specSelected_cons_some_neg href rest hg]

lemma fileGets_processAnchors (env : Env) (url td : String) :
    ∀ (as : List (Option String)) (fs : FS),
      fileGetUrlsOf (processAnchors env url td fs as).2
        = (specSelected as).map (fun n => url ++ n) := by
  intro as
  induction as with
  | nil => intro fs; rfl
  | cons a rest ih =>
    intro fs
    cases a with
    | none =>
      simp [processAnchors, processAnchor, fileGetUrlsOf_append, ih, specSelected_cons_none]
    | some href =>
      cases hg : ends href ".grib2" with
      | true =>
        have hc : (href != "" && ends href ".grib2") = true := by rw [truthy_cond]; exact hg
        simp [processAnchors, processAnchor, hc, fileGetUrlsOf_append, ih,
          specSelected_cons_some_pos href rest hg, fileGetUrlsOf_cons_fileGet,
          fileGetUrlsOf_cons_fileWrite, fileGetUrlsOf_cons_print, fileGetUrlsOf_nil]
      | false =>
        have hc : (href != "" && ends href ".grib2") = false := by rw [truthy_cond]; exact hg
        simp [processAnchors, processAnchor, hc, fileGetUrlsOf_append, ih,
          specSelected_cons_some_neg href rest hg]

lemma dirsAfter_append (ds : List String) (a b : List Event) :
    dirsAfter ds (a ++ b) = dirsAfter (dirsAfter ds a) b := by
  simp [dirsAfter]

lemma dirsAfter_nil (ds : List String) : dirsAfter ds [] = ds := rfl

lemma dirsAfter_cons_mkdir (ds : List String) (p : String) (l : List Event) :
    dirsAfter ds (Event.mkdir p :: l) = dirsAfter (p :: ds) l := rfl

lemma dirsAfter_cons_listGet (ds : List String) (u : String) (l : List Event) :
    dirsAfter ds (Event.listGet u :: l) = dirsAfter ds l := rfl

lemma dirsAfter_cons_fileGet (ds : List String) (u : String) (l : List Event) :
    dirsAfter ds (Event.fileGet u :: l) = dirsAfter ds l := rfl

lemma dirsAfter_cons_fileWrite (ds : List String) (d n : String) (c : List Nat)
    (l : List Event) :
    dirsAfter ds (Event.fileWrite d n c :: l) = dirsAfter ds l := rfl

lemma dirsAfter_cons_print (ds : List String) (m : String) (l : List Event) :
    dirsAfter ds (Event.print m :: l) = dirsAfter ds l := rfl

lemma fsOk_nil (ds : List String) : fsOk ds [] = true := rfl

lemma fsOk_cons_mkdir (ds : List String) (p : String) (l : List Event) :
    fsOk ds (Event.mkdir p :: l) = (!ds.contains p && fsOk (p :: ds) l) := rfl

lemma fsOk_cons_listGet (ds : List String) (u : String) (l : List Event) :
    fsOk ds (Event.listGet u :: l) = fsOk ds l := rfl

lemma fsOk_cons_fileGet (ds : List String) (u : String) (l : List Event) :
    fsOk ds (Event.fileGet u :: l) = fsOk ds l := rfl

lemma fsOk_cons_fileWrite (ds : List String) (d n : String) (c : List Nat) (l : List Event) :
    fsOk ds (Event.fileWrite d n c :: l) = (ds.contains d && fsOk ds l) := rfl

lemma fsOk_cons_print (ds : List String) (m : String) (l : List Event) :
    fsOk ds (Event.print m :: l) = fsOk ds l := rfl

lemma fsOk_append : ∀ (a b : List Event) (ds : List String),
    fsOk ds (a ++ b) = (fsOk ds a && fsOk (dirsAfter ds a) b) := by
  intro a
  induction a with
  | nil => intro b ds; simp [fsOk_nil, dirsAfter_nil]
  | cons e rest ih =>
    intro b ds
    cases e <;>
      simp [fsOk_cons_mkdir, fsOk_cons_listGet, fsOk_cons_fileGet, fsOk_cons_fileWrite,
        fsOk_cons_print, dirsAfter_cons_mkdir, dirsAfter_cons_listGet, dirsAfter_cons_fileGet,
        dirsAfter_cons_fileWrite, dirsAfter_cons_print, ih, Bool.and_assoc]

lemma dirs_processAnchor (env : Env) (url td : String) (fs : FS) (a : Option String) :
    (processAnchor env url td fs a).1.dirs = fs.dirs := by
  cases a with
  | none => rfl
  | some href =>
    by_cases hc : (href != "" && ends href ".grib2") = true <;> simp [processAnchor, hc]

lemma dirsAfter_processAnchor (env : Env) (url td : String) (fs : FS) (a : Option String)
    (ds : List String) :
    dirsAfter ds (processAnchor env url td fs a).2 = ds := by
  cases a with
  | none => rfl
  | some href =>
    by_cases hc : (href != "" && ends href ".grib2") = true <;> simp [processAnchor, hc, dirsAfter]

lemma fsOk_processAnchor (env : Env) (url td : String) (fs : FS) (a : Option String)
    (ds : List String) (h : td ∈ ds) :
    fsOk ds (processAnchor env url td fs a).2 = true := by
  cases a with
  | none => rfl
  | some href =>
    by_cases hc : (href != "" && ends href ".grib2") = true <;>
      simp [processAnchor, hc, fsOk_cons_fileGet, fsOk_cons_fileWrite, fsOk_cons_print,
        fsOk_nil, h]

lemma dirs_processAnchors (env : Env) (url td : String) :
    ∀ (as : List (Option String)) (fs : FS),
      (processAnchors env url td fs as).1.dirs = fs.dirs := by
  intro as
  induction as with
  | nil => intro fs; rfl
  | cons a rest ih =>
    intro fs
    simp [processAnchors, ih, dirs_processAnchor]

lemma dirsAfter_processAnchors (env : Env) (url td : String) :
    ∀ (as : List (Option String)) (fs : FS) (ds : List String),
      dirsAfter ds (processAnchors env url td fs as).2 = ds := by
  intro as
  induction as with
  | nil => intro fs ds; rfl
  | cons a rest ih =>
    intro fs ds
    simp [processAnchors, dirsAfter_append, dirsAfter_processAnchor, ih]

lemma fsOk_processAnchors (env : Env) (url td : String) :
    ∀ (as : List (Option String)) (fs : FS) (ds : List String), td ∈ ds →
      fsOk ds (processAnchors env url td fs as).2 = true := by
  intro as
  induction as with
  | nil => intro fs ds _; rfl
  | cons a rest ih =>
    intro fs ds h
    simp [processAnchors, fsOk_append, fsOk_processAnchor env url td fs a ds h,
      dirsAfter_processAnchor, ih _ ds h]

lemma dirs_fetchType (env : Env) (tpl d tm td : String) (fs : FS) (t : String) :
    (fetchType env tpl d tm td fs t).1.dirs = fs.dirs := by
  by_cases h200 : (env.listing (pyFormat tpl d tm t)).1 = 200 <;>
    simp [fetchType, h200, dirs_processAnchors]

lemma dirsAfter_fetchType (env : Env) (tpl d tm td : String) (fs : FS) (t : String)
    (ds : List String) :
    dirsAfter ds (fetchType env tpl d tm td fs t).2 = ds := by
  by_cases h200 : (env.listing (pyFormat tpl d tm t)).1 = 200 <;>
    simp [fetchType, h200, dirsAfter_cons_listGet, dirsAfter_cons_print, dirsAfter_nil,
      dirsAfter_append, dirsAfter_processAnchors]

lemma fsOk_fetchType (env : Env) (tpl d tm td : String) (fs : FS) (t : String)
    (ds : List String) (h : td ∈ ds) :
    fsOk ds (fetchType env tpl d tm td fs t).2 = true := by
  by_cases h200 : (env.listing (pyFormat tpl d tm t)).1 = 200 <;>
    simp [fetchType, h200, fsOk_cons_listGet, fsOk_cons_print, fsOk_nil, fsOk_append,
      fsOk_processAnchors env (pyFormat tpl d tm t) td _ fs ds h, dirsAfter_processAnchors]

lemma dirs_fetchTypes (env : Env) (tpl d tm td : String) :
    ∀ (types : List String) (fs : FS),
      (fetchTypes env tpl d tm td fs types).1.dirs = fs.dirs := by
  intro types
  induction types with
  | nil => intro fs; rfl
  | cons t rest ih =>
    intro fs
    simp [fetchTypes, ih, dirs_fetchType]

lemma dirsAfter_fetchTypes (env : Env) (tpl d tm td : String) :
    ∀ (types : List String) (fs : FS) (ds : List String),
      dirsAfter ds (fetchTypes env tpl d tm td fs types).2 = ds := by
  intro types
  induction types with
  | nil => intro fs ds; rfl
  | cons t rest ih =>
    intro fs ds
    simp [fetchTypes, dirsAfter_append, dirsAfter_fetchType, ih]

lemma fsOk_fetchTypes (env : Env) (tpl d tm td : String) :
    ∀ (types : List String) (fs : FS) (ds : List String), td ∈ ds →
      fsOk ds (fetchTypes env tpl d tm td fs types).2 = true := by
  intro types
  induction types with
  | nil => intro fs ds _; rfl
  | cons t rest ih =>
    intro fs ds h
    simp [fetchTypes, fsOk_append, fsOk_fetchType env tpl d tm td fs t ds h,
      dirsAfter_fetchType, ih _ ds h]

lemma download_fsOk (env : Env) (tpl date bd time : String) (types : List String) (fs : FS) :
    fsOk fs.dirs (download_grib_files env tpl date bd time types fs).2 = true ∧
    (download_grib_files env tpl date bd time types fs).1.dirs
      = dirsAfter fs.dirs (download_grib_files env tpl date bd time types fs).2 := by
  by_cases hc : targetDirOf bd date time ∈ fs.dirs
  · constructor
    · simp [download_grib_files, hc, fsOk_fetchTypes env tpl date time _ types fs _ hc]
    · simp [download_grib_files, hc, dirs_fetchTypes, dirsAfter_fetchTypes]
  · have hmem : targetDirOf bd date time ∈ targetDirOf bd date time :: fs.dirs := by simp
    constructor
    · simp [download_grib_files, hc, fsOk_cons_mkdir,
        fsOk_fetchTypes env tpl date time _ types _ _ hmem]
    · simp [download_grib_files, hc, dirs_fetchTypes, dirsAfter_cons_mkdir,
        dirsAfter_fetchTypes]

lemma runSlots_fsOk (env : Env) (d bd : String) :
    ∀ (slots : List (String × List String)) (fs : FS),
      fsOk fs.dirs (runSlots env d bd fs slots).2 = true ∧
      (runSlots env d bd fs slots).1.dirs = dirsAfter fs.dirs (runSlots env d bd fs slots).2 := by
  intro slots
  induction slots with
  | nil => intro fs; exact ⟨rfl, rfl⟩
  | cons tt rest ih =>
    intro fs
    have hd := download_fsOk env url_template d bd tt.1 tt.2 fs
    have hi := ih (download_grib_files env url_template d bd tt.1 tt.2 fs).1
    constructor
    · simp [runSlots, fsOk_append, hd.1, ← hd.2, hi.1]
    · simp [runSlots, dirsAfter_append, ← hd.2, hi.2]

lemma run_fsOk (env : Env) (bd : String) :
    ∀ (dates : List String) (fs : FS),
      fsOk fs.dirs (lists_by_dates env dates bd fs).2 = true ∧
      (lists_by_dates env dates bd fs).1.dirs
        = dirsAfter fs.dirs (lists_by_dates env dates bd fs).2 := by
  intro dates
  induction dates with
  | nil => intro fs; exact ⟨rfl, rfl⟩
  | cons d ds ih =>
    intro fs
    have hs := runSlots_fsOk env d bd times_types fs
    have hi := ih (runSlots env d bd fs times_types).1
    constructor
    · simp [lists_by_dates, fsOk_append, hs.1, ← hs.2, hi.1]
    · simp [lists_by_dates, dirsAfter_append, ← hs.2, hi.2]

lemma fetchTypes_state_all_fail (env : Env) (tpl d tm td : String) :
    ∀ (types : List String) (fs : FS),
      (∀ t ∈ types, (env.listing (pyFormat tpl d tm t)).1 ≠ 200) →
      (fetchTypes env tpl d tm td fs types).1 = fs := by
  intro types
  induction types with
  | nil => intro fs _; rfl
  | cons t rest ih =>
    intro fs h
    have ht : (env.listing (pyFormat tpl d tm t)).1 ≠ 200 := h t (by simp)
    have hr : ∀ t2 ∈ rest, (env.listing (pyFormat tpl d tm t2)).1 ≠ 200 :=
      fun t2 h2 => h t2 (by simp [h2])
    simp [fetchTypes, fetchType, ht, ih _ hr]

lemma setFile_nil (p : String) (c : List Nat) : setFile [] p c = [(p, c)] := by
  simp [setFile]

lemma setFile_same (p : String) (c c' : List Nat) : setFile [(p, c)] p c' = [(p, c')] := by
  simp [setFile]

lemma xgrib_cond : (("x.grib2" : String) != "" && ends "x.grib2" ".grib2") = true := by decide

lemma ends_xgrib : ends "x.grib2" ".grib2" = true := by decide

lemma basename_xgrib : basename "x.grib2" = "x.grib2" := by decide

lemma strData_append (a b : String) : (a ++ b).data = a.data ++ b.data := by
  cases a; cases b; rfl

lemma ne_of_concat_head (pre C : String) (h : C.data.take pre.data.length ≠ pre.data) :
    ∀ x : String, pre ++ x ≠ C := by
  intro x hEq
  apply h
  have hd : pre.data ++ x.data = C.data := by rw [← strData_append, hEq]
  rw [← hd]
  exact List.take_left pre.data x.data

lemma ne_of_concat_last (sfx C : String) (h : C.data.reverse.take sfx.data.length ≠ sfx.data.reverse) :
    ∀ x : String, x ++ sfx ≠ C := by
  intro x hEq
  apply h
  have hd : x.data ++ sfx.data = C.data := by rw [← strData_append, hEq]
  rw [← hd, List.reverse_append]
  have hl : sfx.data.length = sfx.data.reverse.length := (List.length_reverse _).symm
  rw [hl]
  exact List.take_left sfx.data.reverse x.data.reverse

lemma countMsg_append (a b : List Event) (m : String) :
    countMsg (a ++ b) m = countMsg a m + countMsg b m := by
  simp [countMsg, List.filter_append]

lemma countMsg_nil (m : String) : countMsg [] m = 0 := rfl

lemma countMsg_cons_mkdir (p m : String) (l : List Event) :
    countMsg (Event.mkdir p :: l) m = countMsg l m := rfl

lemma countMsg_cons_listGet (u m : String) (l : List Event) :
    countMsg (Event.listGet u :: l) m = countMsg l m := rfl

lemma countMsg_cons_fileGet (u m : String) (l : List Event) :
    countMsg (Event.fileGet u :: l) m = countMsg l m := rfl

lemma countMsg_cons_fileWrite (d n : String) (c : List Nat) (m : String) (l : List Event) :
    countMsg (Event.fileWrite d n c :: l) m = countMsg l m := rfl

lemma countMsg_cons_print_eq (m : String) (l : List Event) :
    countMsg (Event.print m :: l) m = countMsg l m + 1 := by
  simp [countMsg, List.filter_cons]

lemma countMsg_cons_print_ne (m' m : String) (h : m' ≠ m) (l : List Event) :
    countMsg (Event.print m' :: l) m = countMsg l m := by
  simp [countMsg, List.filter_cons, h]

lemma countMsg_processAnchor (env : Env) (url td : String) (fs : FS) (a : Option String)
    (C : String) (hA : ∀ fn, downloadedMsg fn ≠ C) :
    countMsg (processAnchor env url td fs a).2 C = 0 := by
  cases a with
  | none => rfl
  | some href =>
    by_cases hc : (href != "" && ends href ".grib2") = true <;>
      simp [processAnchor, hc, countMsg_cons_fileGet, countMsg_cons_fileWrite,
        countMsg_cons_print_ne _ _ (hA (basename href)), countMsg_nil]

lemma countMsg_processAnchors (env : Env) (url td : String) (C : String)
    (hA : ∀ fn, downloadedMsg fn ≠ C) :
    ∀ (as : List (Option String)) (fs : FS),
      countMsg (processAnchors env url td fs as).2 C = 0 := by
  intro as
  induction as with
  | nil => intro fs; rfl
  | cons a rest ih =>
    intro fs
    simp [processAnchors, countMsg_append, countMsg_processAnchor env url td fs a C hA, ih]

lemma countMsg_fetchType (env : Env) (tpl date time td : String) (fs : FS) (t : String)
    (hA : ∀ fn, downloadedMsg fn ≠ completionMsg date time)
    (hB : failMsg (pyFormat tpl date time t) ≠ completionMsg date time) :
    countMsg (fetchType env tpl date time td fs t).2 (completionMsg date time)
      = if (env.listing (pyFormat tpl date time t)).1 = 200 then 1 else 0 := by
  by_cases h200 : (env.listing (pyFormat tpl date time t)).1 = 200 <;>
    simp [fetchType, h200, countMsg_append, countMsg_cons_listGet,
      countMsg_processAnchors env (pyFormat tpl date time t) td _ hA,
      countMsg_cons_print_eq, countMsg_cons_print_ne _ _ hB, countMsg_nil]

lemma countMsg_fetchTypes (env : Env) (tpl date time td : String)
    (hA : ∀ fn, downloadedMsg fn ≠ completionMsg date time)
    (hB : ∀ u, failMsg u ≠ completionMsg date time) :
    ∀ (types : List String) (fs : FS),
      countMsg (fetchTypes env tpl date time td fs types).2 (completionMsg date time)
        = (types.filter (fun t => (env.listing (pyFormat tpl date time t)).1 == 200)).length := by
  intro types
  induction types with
  | nil => intro fs; rfl
  | cons t rest ih =>
    intro fs
    by_cases h200 : (env.listing (pyFormat tpl date time t)).1 = 200 <;>
      simp [fetchTypes, countMsg_append, ih,
        countMsg_fetchType env tpl date time td _ t hA (hB _), List.filter_cons, h200,
        Nat.add_comm]

/-- C1: over an ordered list of dates the sweep issues exactly one listing
request per (date, slot, product-type) triple, in date-major order, then the
fixed slot-table order (00z, 12z, 06z, 18z), then type-list order, regardless
of the outcomes of earlier listing requests; for two dates that is
2 × 4 × 2 = 16 requests. -/
theorem sweep_listing_requests (env : Env) (dates : List String) (bd : String) (fs : FS) :
    listingUrlsOf (lists_by_dates env dates bd fs).2 = expectedUrls dates ∧
    (expectedUrls ["20240311", "20240312"]).length = 16 :=
  ⟨listingUrls_run env bd dates fs, by decide⟩

/-- C8: no failure of one (date, slot, product-type) listing fetch prevents a
later triple from being attempted — in every environment, every requested
triple's listing URL occurs in the sweep's trace. -/
theorem failure_no_early_termination (env : Env) (dates : List String) (bd : String) (fs : FS)
    (d : String) (tt : String × List String) (t : String)
    (hd : d ∈ dates) (htt : tt ∈ times_types) (ht : t ∈ tt.2) :
    pyFormat url_template d tt.1 t ∈ listingUrlsOf (lists_by_dates env dates bd fs).2 := by
  rw [listingUrls_run]
  unfold expectedUrls
  simp only [List.mem_flatMap]
  exact ⟨d, hd, tt, htt, List.mem_map.mpr ⟨t, ht, rfl⟩⟩

theorem failure_no_early_termination_witness :
    pyFormat url_template "20240312" "18z" "scwv"
      ∈ listingUrlsOf (lists_by_dates env404 ["20240311", "20240312"] "D" fs0).2 :=
  failure_no_early_termination env404 ["20240311", "20240312"] "D" fs0
    "20240312" ("18z", ["scda", "scwv"]) "scwv" (by decide) (by decide) (by decide)

/-- C5: a non-200 listing response yields zero files for that triple, only a
logged failure naming the URL, no exception, and the remaining product types
are still all requested. -/
theorem non200_listing_skipped (env : Env) (tpl date time target_dir : String) (fs : FS)
    (t : String) (h : (env.listing (pyFormat tpl date time t)).1 ≠ 200) :
    fetchType env tpl date time target_dir fs t
      = (fs, [Event.listGet (pyFormat tpl date time t),
              Event.print (failMsg (pyFormat tpl date time t))]) ∧
    ∀ (base_dir : String) (types : List String),
      listingUrlsOf (download_grib_files env tpl date base_dir time types fs).2
        = types.map (fun t2 => pyFormat tpl date time t2) := by
  refine ⟨?_, fun bd types => listingUrls_download env tpl date bd time types fs⟩
  simp [fetchType, h]

theorem non200_listing_skipped_witness :
    (fetchType env404 url_template "20240311" "00z" (targetDirOf "D" "20240311" "00z") fs0 "oper"
      = (fs0, [Event.listGet (pyFormat url_template "20240311" "00z" "oper"),
               Event.print (failMsg (pyFormat url_template "20240311" "00z" "oper"))])) ∧
    ∀ (base_dir : String) (types : List String),
      listingUrlsOf (download_grib_files env404 url_template "20240311" base_dir "00z" types fs0).2
        = types.map (fun t2 => pyFormat url_template "20240311" "00z" t2) :=
  non200_listing_skipped env404 url_template "20240311" "00z"
    (targetDirOf "D" "20240311" "00z") fs0 "oper" (by decide)

/-- C2: for every 8-character date token the directory-name reformatting
equals `d[0:4] ++ "_" ++ d[4:6] ++ "_" ++ d[6:8]` — positional slicing with no
calendar validation. -/
theorem reformat_is_positional_slice (d : String) (h : d.length = 8) :
    reformat d
      = String.mk (d.data.take 4) ++ "_" ++ String.mk ((d.data.drop 4).take 2) ++ "_"
        ++ String.mk ((d.data.drop 6).take 2) := by
  have hl : d.data.length = 8 := h
  have h2 : (d.data.drop 6).take 2 = d.data.drop 6 := by
    apply List.take_of_length_le
    simp [hl]
  simp only [reformat]
  rw [h2]

theorem reformat_is_positional_slice_witness :
    ("20240311" : String).length = 8 ∧
    reformat "20240311"
      = String.mk (("20240311" : String).data.take 4) ++ "_"
        ++ String.mk ((("20240311" : String).data.drop 4).take 2) ++ "_"
        ++ String.mk ((("20240311" : String).data.drop 6).take 2) :=
  ⟨by decide, reformat_is_positional_slice "20240311" (by decide)⟩

/-- C3: on a successfully fetched listing page exactly the anchors whose href
is present and ends in `.grib2` are downloaded, the written file name being
the final path component of the href; anchors without href or with another
suffix are ignored. -/
theorem grib2_anchor_filtering (env : Env) (tpl date time target_dir : String) (fs : FS)
    (t : String) (anchors : List (Option String))
    (h : env.listing (pyFormat tpl date time t) = (200, anchors)) :
    writesOf (fetchType env tpl date time target_dir fs t).2
      = (specSelected anchors).map
          (fun n => (target_dir, n, env.fileBody (pyFormat tpl date time t ++ n))) := by
  simp [fetchType, h, writesOf_append, writes_processAnchors,
    writesOf_cons_listGet, writesOf_cons_print, writesOf_nil]

theorem grib2_anchor_filtering_witness :
    writesOf (fetchType envSel url_template "20240311" "00z"
        (targetDirOf "D" "20240311" "00z") fs0 "oper").2
      = (specSelected [some "a.grib2", some "b.txt", some "c.grib2"]).map
          (fun n => (targetDirOf "D" "20240311" "00z", n,
            envSel.fileBody (pyFormat url_template "20240311" "00z" "oper" ++ n))) :=
  grib2_anchor_filtering envSel url_template "20240311" "00z"
    (targetDirOf "D" "20240311" "00z") fs0 "oper"
    [some "a.grib2", some "b.txt", some "c.grib2"] rfl

/-- C6: every download URL is the listing URL concatenated directly with the
bare file name (the final path component of the href); any other path
structure of the href is ignored. -/
theorem file_url_plain_concat (env : Env) (tpl date time target_dir : String) (fs : FS)
    (t : String) (anchors : List (Option String))
    (h : env.listing (pyFormat tpl date time t) = (200, anchors)) :
    fileGetUrlsOf (fetchType env tpl date time target_dir fs t).2
      = (specSelected anchors).map (fun n => pyFormat tpl date time t ++ n) := by
  simp [fetchType, h, fileGetUrlsOf_append, fileGets_processAnchors,
    fileGetUrlsOf_cons_listGet, fileGetUrlsOf_cons_print, fileGetUrlsOf_nil]

theorem file_url_plain_concat_witness :
    fileGetUrlsOf (fetchType envDeep url_template "20240311" "00z"
        (targetDirOf "D" "20240311" "00z") fs0 "oper").2
      = (specSelected [some "sub/dir/x.grib2", none, some "notes.txt"]).map
          (fun n => pyFormat url_template "20240311" "00z" "oper" ++ n) :=
  file_url_plain_concat envDeep url_template "20240311" "00z"
    (targetDirOf "D" "20240311" "00z") fs0 "oper"
    [some "sub/dir/x.grib2", none, some "notes.txt"] rfl

/-- C4: throughout a sweep every file write lands in a directory existing at
the time of the write, and a directory is never created when it already exists
(so a second run over the same filesystem never fails on directory creation):
the trace of any run, and of a rerun from the resulting state, satisfies the
filesystem discipline. -/
theorem target_dir_exists_before_writes (env : Env) (dates : List String) (bd : String)
    (fs : FS) :
    fsOk fs.dirs (lists_by_dates env dates bd fs).2 = true ∧
    fsOk (lists_by_dates env dates bd fs).1.dirs
      (lists_by_dates env dates bd (lists_by_dates env dates bd fs).1).2 = true :=
  ⟨(run_fsOk env bd dates fs).1, (run_fsOk env bd dates (lists_by_dates env dates bd fs).1).1⟩

/-- C10: when the target directory of a (date, slot) pair does not yet exist,
it is created before any HTTP request of that pair, and it remains on disk —
with no files added — even when every listing request of the pair fails. -/
theorem dir_created_even_when_all_fail (env : Env) (tpl date bd time : String)
    (types : List String) (fs : FS)
    (h1 : targetDirOf bd date time ∉ fs.dirs)
    (h2 : ∀ t ∈ types, (env.listing (pyFormat tpl date time t)).1 ≠ 200) :
    (download_grib_files env tpl date bd time types fs).2.head?
        = some (Event.mkdir (targetDirOf bd date time)) ∧
    (download_grib_files env tpl date bd time types fs).1.dirs
        = targetDirOf bd date time :: fs.dirs ∧
    (download_grib_files env tpl date bd time types fs).1.files = fs.files := by
  refine ⟨?_, ?_, ?_⟩
  · simp [download_grib_files, h1]
  · simp [download_grib_files, h1, dirs_fetchTypes]
  · simp [download_grib_files, h1, fetchTypes_state_all_fail env tpl date time _ types _ h2]

theorem dir_created_even_when_all_fail_witness :
    (download_grib_files env404 url_template "20240311" "D" "00z" ["oper", "wave"] fs0).2.head?
        = some (Event.mkdir (targetDirOf "D" "20240311" "00z")) ∧
    (download_grib_files env404 url_template "20240311" "D" "00z" ["oper", "wave"] fs0).1.dirs
        = targetDirOf "D" "20240311" "00z" :: fs0.dirs ∧
    (download_grib_files env404 url_template "20240311" "D" "00z" ["oper", "wave"] fs0).1.files
        = fs0.files :=
  dir_created_even_when_all_fail env404 url_template "20240311" "D" "00z" ["oper", "wave"] fs0
    (by decide) (by decide)

/-- C7: when the same file name `x.grib2` is downloaded twice into the same
target directory (here, from the two listing pages of one slot), the second
write truncates and replaces the first: the run returns normally and the
filesystem holds exactly one entry at that path, carrying the second
content. -/
theorem duplicate_name_overwrites (env : Env) (tpl date bd time t1 t2 : String)
    (c1 c2 : List Nat) (fs : FS)
    (h1 : env.listing (pyFormat tpl date time t1) = (200, [some "x.grib2"]))
    (h2 : env.listing (pyFormat tpl date time t2) = (200, [some "x.grib2"]))
    (h3 : env.fileBody (pyFormat tpl date time t1 ++ "x.grib2") = c1)
    (h4 : env.fileBody (pyFormat tpl date time t2 ++ "x.grib2") = c2)
    (h5 : fs.files = []) :
    (download_grib_files env tpl date bd time [t1, t2] fs).1.files
      = [(pathJoin (targetDirOf bd date time) "x.grib2", c2)] := by
  by_cases hc : targetDirOf bd date time ∈ fs.dirs <;>
    simp [download_grib_files, hc, fetchTypes, fetchType, processAnchors, processAnchor,
      h1, h2, h3, h4, h5, xgrib_cond, ends_xgrib, basename_xgrib, setFile_nil, setFile_same]

theorem duplicate_name_overwrites_witness :
    (download_grib_files envDup url_template "20240311" "D" "00z" ["oper", "wave"] fs0).1.files
      = [(pathJoin (targetDirOf "D" "20240311" "00z") "x.grib2", [2])] :=
  duplicate_name_overwrites envDup url_template "20240311" "D" "00z" "oper" "wave"
    [1] [2] fs0 rfl rfl (by decide) (by decide) rfl

/-- C9 counterexample: in a run where both product types of the 00z slot
answer 200, the per-(date, slot) completion message is printed twice for the
slot, not exactly once. -/
theorem completion_once_per_slot_cex :
    ¬ countMsg (download_grib_files env200 url_template "20240311" "D" "00z"
        ["oper", "wave"] fs0).2 (completionMsg "20240311" "00z") = 1 := by decide

/-- C9 (amended): the completion message naming the date and slot is emitted
once per product type whose listing request returns HTTP 200 — at the end of
that type's iteration — rather than once per slot; types whose listing fails
emit none.  The side conditions say the completion message collides neither
with a per-file message nor with a failure message. -/
theorem completion_per_successful_type (env : Env) (tpl date bd time : String)
    (types : List String) (fs : FS)
    (hA : ∀ fn, downloadedMsg fn ≠ completionMsg date time)
    (hB : ∀ u, failMsg u ≠ completionMsg date time) :
    countMsg (download_grib_files env tpl date bd time types fs).2 (completionMsg date time)
      = (types.filter (fun t => (env.listing (pyFormat tpl date time t)).1 == 200)).length := by
  by_cases hc : targetDirOf bd date time ∈ fs.dirs <;>
    simp [download_grib_files, hc, countMsg_cons_mkdir,
      countMsg_fetchTypes env tpl date time _ hA hB types]

theorem completion_per_successful_type_witness :
    countMsg (download_grib_files env200 url_template "20240311" "D" "00z"
        ["oper", "wave"] fs0).2 (completionMsg "20240311" "00z")
      = ((["oper", "wave"] : List String).filter
          (fun t => (env200.listing (pyFormat url_template "20240311" "00z" t)).1 == 200)).length :=
  completion_per_successful_type env200 url_template "20240311" "D" "00z" ["oper", "wave"] fs0
    (fun fn => ne_of_concat_last " downloaded." (completionMsg "20240311" "00z") (by decide) fn)
    (fun u => ne_of_concat_head "Failed to access " (completionMsg "20240311" "00z") (by decide) u)

end ECMWF
